import Mathlib

/-!
Shallow embedding of the go-vidprep clip-to-chunk pipeline
(github.com/melody-ding/go-vidprep), covering:

* `internal/types`           : `Clip`, `ClipMetadata` (with its JSON tags),
* `internal/processor`       : the chunk-partitioning arithmetic of
  `ProcessClip` (both the npy and the jpg branch share it verbatim), the
  per-chunk metadata record it constructs, and the worker/error-aggregation
  logic of `ProcessClips`,
* `internal/numpy`           : `createHeader` and `Writer.Write`,
* `internal/tar_reader`      : `ExtractClipsFromTar`,
* `internal/sharding`        : the sample discovery walk, the shard
  partitioning of `CreateWebDatasetShards`, and the tar entry naming of
  `createShard`.

Go machine integers are modelled as `Int` with Go truncated division
(`Int.tdiv` / `Int.tmod`); a Go runtime panic (integer division by zero) is
modelled as `Option.none`; a Go `error` return is modelled with
`Option String` / `Except String`.  File-system paths are modelled as lists
of path components.
-/

/-- Go `fmt.Sprintf("%05d", i)` for a non-negative index: decimal digits
left-padded with zeros to width 5. -/
def sprintf05 (i : Nat) : String :=
  let s := toString i
  String.mk (List.replicate (5 - s.length) (Char.ofNat 48)) ++ s

/-- `internal/types.Clip`: a video clip key plus raw bytes. -/
structure Clip where
  key : String
  rawData : List Nat
  deriving Repr, DecidableEq

/-- `internal/types.ClipMetadata` (field order as in the Go struct). -/
structure ClipMetadata where
  key : String
  fps : Int
  frameCount : Int
  size : List Int
  isPadded : Bool
  isTrimmed : Bool
  originalFPS : Int
  deriving Repr, DecidableEq

/-- The JSON keys `encoding/json` emits for a `ClipMetadata` value, in struct
order, following the tags of the Go struct:
`key`, `fps`, `frame_count`, `size` are always emitted (no omitempty);
`is_padded,omitempty` and `is_trimmed,omitempty` are dropped when the bool is
`false`; `original_fps,omitempty` is dropped when the int is `0`. -/
def clipMetadataJSONFields (m : ClipMetadata) : List String :=
  ["key", "fps", "frame_count", "size"]
    ++ (if m.isPadded then ["is_padded"] else [])
    ++ (if m.isTrimmed then ["is_trimmed"] else [])
    ++ (if m.originalFPS ≠ 0 then ["original_fps"] else [])

/-- `internal/processor.Dimensions`. -/
structure Dimensions where
  width : Int
  height : Int
  deriving Repr, DecidableEq

/-- `internal/processor.OutputFormat`: the two values `FormatJPEG` ("jpg")
and `FormatNPY` ("npy") accepted by `main`. -/
inductive OutputFormat where
  | jpg
  | npy
  deriving Repr, DecidableEq

/-- A half-open frame range `[start, stop)` emitted for one chunk. -/
structure ChunkRange where
  start : Int
  stop : Int
  deriving Repr, DecidableEq

/-- The chunk-partitioning arithmetic of `processor.ProcessClip`
(identical, line for line, in the npy branch and in the jpg branch):

```
numChunks := totalFrames / targetFrames
for i := 0; i < numChunks; i++ {
    startFrame := i * targetFrames
    endFrame := (i + 1) * targetFrames
    ... emit chunk i covering [startFrame, endFrame) ...
}
remainingFrames := totalFrames % targetFrames
if remainingFrames == targetFrames {
    startFrame := numChunks * targetFrames
    endFrame := startFrame + targetFrames
    ... emit chunk numChunks ...
}
```

`targetFrames = 0` makes the Go division panic, modelled as `none`.
Division and remainder are Go truncated division. -/
def chunkPlanTrunc (totalFrames targetFrames : Int) : Option (List ChunkRange) :=
  if targetFrames = 0 then none
  else
    let numChunks := totalFrames.tdiv targetFrames
    let chunks := (List.range numChunks.toNat).map
      (fun i => ⟨(i : Int) * targetFrames, ((i : Int) + 1) * targetFrames⟩)
    let remainingFrames := totalFrames.tmod targetFrames
    if remainingFrames = targetFrames then
      some (chunks ++ [⟨numChunks * targetFrames, numChunks * targetFrames + targetFrames⟩])
    else
      some chunks

/-- `processor.ProcessClip`, restricted to its chunk planning: the switch on
the output format runs the same partitioning arithmetic in the `FormatNPY`
case and in the `default` (jpg) case. -/
def processClipPlan (format : OutputFormat) (totalFrames targetFrames : Int) :
    Option (List ChunkRange) :=
  match format with
  | OutputFormat.npy => chunkPlanTrunc totalFrames targetFrames
  | OutputFormat.jpg => chunkPlanTrunc totalFrames targetFrames

/-- The `types.ClipMetadata` literal `processor.ProcessClip` constructs for
chunk `i` of clip `clipKey` (both branches build the same record; the Go
composite literal leaves `IsPadded` and `IsTrimmed` at their zero value
`false`):

```
metadata := types.ClipMetadata{
    Key:         fmt.Sprintf("%s/chunk_%05d", clip.Key, i),
    FPS:         fps,
    FrameCount:  targetFrames,
    Size:        []int{dims.Height, dims.Width},
    OriginalFPS: fps,
}
``` -/
def processClipChunkMetadata (clipKey : String) (i : Nat) (fps targetFrames : Int)
    (dims : Dimensions) : ClipMetadata :=
  { key := clipKey ++ "/chunk_" ++ sprintf05 i
    fps := fps
    frameCount := targetFrames
    size := [dims.height, dims.width]
    isPadded := false
    isTrimmed := false
    originalFPS := fps }

/-- The error string a worker in `processor.ProcessClips` pushes on the
errors channel when `ProcessClip` fails for `clip`:
`fmt.Errorf("error processing %s: %v", clip.Key, err)`. -/
def clipErrMsg (c : Clip) (e : String) : String :=
  "error processing " ++ c.key ++ ": " ++ e

/-- The list of per-clip error strings collected from the errors channel of
`processor.ProcessClips` after all workers drain the job queue.  `run`
abstracts `ProcessClip`: `run c = some e` means processing clip `c` fails
with error `e`; `run c = none` means it succeeds.  Every clip of `clips` is
sent to the pre-loaded jobs channel and processed exactly once. -/
def collectErrs (run : Clip → Option String) (clips : List Clip) : List String :=
  clips.filterMap (fun c => (run c).map (clipErrMsg c))

/-- Go `fmt`'s rendering `%v` of the `[]error` slice: the elements, space
separated, between square brackets. -/
def renderErrs (errs : List String) : String :=
  "[" ++ String.intercalate " " errs ++ "]"

/-- `processor.ProcessClips`: returns the number of workers actually started
(`if numWorkers <= 0 { numWorkers = 4 }`) together with the aggregate result:
`fmt.Errorf("encountered %d errors: %v", len(errs), errs)` when any clip
failed, `nil` otherwise. -/
def processClips (run : Clip → Option String) (clips : List Clip)
    (numWorkers : Int) : Int × Option String :=
  let nw := if numWorkers ≤ 0 then 4 else numWorkers
  let errs := collectErrs run clips
  (nw,
    if 0 < errs.length then
      some ("encountered " ++ toString errs.length ++ " errors: " ++ renderErrs errs)
    else
      none)

/-! ## `internal/numpy`: the .npy writer -/

/-- The shape-tuple interior built by the loop in `numpy.createHeader`:
`fmt.Sprintf("%d", s)` for each dimension, with `", "` between consecutive
dimensions. -/
def shapeParts : List Int → String
  | [] => ""
  | [s] => toString s
  | s :: rest => toString s ++ ", " ++ shapeParts rest

/-- The textual dictionary literal of `numpy.createHeader` (single quotes and
braces written as escapes): for shape `(d0, ..., dk)` it reads
`\x7b'descr': '<u1', 'fortran_order': False, 'shape': (d0, ..., dk)\x7d`. -/
def dictStr (shape : List Int) : String :=
  "\x7b\x27descr\x27: \x27<u1\x27, \x27fortran_order\x27: False, \x27shape\x27: ("
    ++ shapeParts shape ++ ")\x7d"

/-- `len(dictBytes)` in `numpy.createHeader`; the dictionary is pure ASCII,
so the byte length is the character count. -/
def dictLen (shape : List Int) : Nat :=
  (dictStr shape).length

/-- `padding := (16 - (currentHeaderSize % 16)) % 16` with
`currentHeaderSize := len(dictBytes) + 10`. -/
def headerPadding (shape : List Int) : Nat :=
  (16 - (dictLen shape + 10) % 16) % 16

/-- `headerDictWithPaddingLen := uint16(len(dictBytes) + padding)`: the Go
`uint16` conversion truncates modulo 2^16. -/
def headerLenField (shape : List Int) : Nat :=
  (dictLen shape + headerPadding shape) % 65536

/-- `numpy.createHeader` as a byte list: the 8-byte magic+version preamble,
the little-endian `uint16` length field, the dictionary bytes, then
`padding` ASCII spaces (0x20). -/
def createHeader (shape : List Int) : List Nat :=
  [0x93, 0x4E, 0x55, 0x4D, 0x50, 0x59, 0x01, 0x00]
    ++ [headerLenField shape % 256, headerLenField shape / 256]
    ++ ((dictStr shape).toList.map Char.toNat)
    ++ List.replicate (headerPadding shape) 0x20

/-- `numpy.Writer.Write`: writes `createHeader(shape)` and then the data
bytes unchanged. -/
def writerWrite (data : List Nat) (shape : List Int) : List Nat :=
  createHeader shape ++ data

/-! ## `internal/tar_reader` -/

/-- One entry of the input tar archive: header name plus content bytes. -/
structure TarEntry where
  name : String
  data : List Nat
  deriving Repr, DecidableEq

/-- Go `strings.HasSuffix s suffix`:
`len(s) >= len(suffix) && s[len(s)-len(suffix):] == suffix`, over the
character sequence. -/
def hasSuffix (s suffix : String) : Bool :=
  decide (suffix.data.length ≤ s.data.length)
    && (s.data.drop (s.data.length - suffix.data.length) == suffix.data)

/-- Splitting a character sequence at every slash, for `filepath.Base`. -/
def splitSlash : List Char → List (List Char)
  | [] => [[]]
  | c :: rest =>
    match splitSlash rest with
    | [] => [[]]
    | g :: gs => if c = Char.ofNat 47 then [] :: g :: gs else (c :: g) :: gs

/-- Go `filepath.Base` on a slash-separated name (no trailing slash): the
last path component. -/
def filepathBase (s : String) : String :=
  String.mk ((splitSlash s.data).getLastD [])

/-- Go `strings.TrimSuffix`: drops the suffix when present. -/
def trimSuffix (s suffix : String) : String :=
  if hasSuffix s suffix then
    String.mk (s.data.take (s.data.length - suffix.data.length))
  else s

/-- `tar_reader.ExtractClipsFromTar` on the sequence of archive entries:
keeps every entry whose name ends in `.mp4` (there is no other filter), with
key `strings.TrimSuffix(filepath.Base(hdr.Name), ".mp4")` and the entry's
bytes. -/
def extractClipsFromTar (entries : List TarEntry) : List Clip :=
  entries.filterMap (fun e =>
    if hasSuffix e.name ".mp4" then
      some { key := trimSuffix (filepathBase e.name) ".mp4", rawData := e.data }
    else
      none)

/-! ## `internal/sharding` -/

/-- One visit of the `filepath.Walk` callback in
`sharding.CreateWebDatasetShards`: the visited path (as components), whether
it is a directory, whether `os.Stat(filepath.Join(path, "metadata.json"))`
succeeds, and the walk error (if any) handed to the callback for this
entry. -/
structure WalkEntry where
  path : List String
  isDir : Bool
  hasMetadataJson : Bool
  err : Option String
  deriving Repr, DecidableEq

/-- The slash-joined string form of a component path. -/
def joinPath (p : List String) : String :=
  String.intercalate "/" p

/-- Substring occurrence over character sequences, for `strings.Contains`. -/
def containsSubList (l sub : List Char) : Bool :=
  match l with
  | [] => sub.isEmpty
  | _ :: rest => sub.isPrefixOf l || containsSubList rest sub

/-- Go `strings.Contains s sub`: some position of `s` starts the substring
`sub`. -/
def strContains (s sub : String) : Bool :=
  containsSubList s.data sub.data

/-- The sample-discovery walk of `sharding.CreateWebDatasetShards`: visits
entries in traversal order; a callback error aborts the walk (the callback
returns `err`), keeping the samples appended so far; otherwise an entry is a
sample when (npy) it is a file whose path ends in `.npy`, or (jpg) it is a
directory whose path contains `chunk_` and holds a `metadata.json`.  Returns
the collected samples and the walk's error result. -/
def collectSamples (format : OutputFormat) :
    List WalkEntry → List String × Option String
  | [] => ([], none)
  | e :: rest =>
    match e.err with
    | some er => ([], some er)
    | none =>
      let keep :=
        match format with
        | OutputFormat.npy => !e.isDir && hasSuffix (joinPath e.path) ".npy"
        | OutputFormat.jpg =>
            e.isDir && strContains (joinPath e.path) "chunk_" && e.hasMetadataJson
      let r := collectSamples format rest
      ((if keep then [joinPath e.path] else []) ++ r.1, r.2)

/-- The shard partitioning of `sharding.CreateWebDatasetShards`:

```
numShards := (len(samples) + shardSize - 1) / shardSize
for i := 0; i < numShards; i++ {
    start := i * shardSize
    end := (i + 1) * shardSize
    if end > len(samples) { end = len(samples) }
    shardPath := fmt.Sprintf("shard_%05d.tar", i)
    createShard(shardPath, samples[start:end], format)
}
```

Each shard is its tar file name paired with its sample slice. -/
def shardsOf (samples : List String) (shardSize : Int) : List (String × List String) :=
  let numShards := ((samples.length : Int) + shardSize - 1).tdiv shardSize
  (List.range numShards.toNat).map (fun i =>
    ("shard_" ++ sprintf05 i ++ ".tar",
      (samples.drop (i * shardSize.toNat)).take
        (min ((i + 1) * shardSize.toNat) samples.length - i * shardSize.toNat)))

/-- `sharding.CreateWebDatasetShards`: runs the discovery walk and DISCARDS
its error result (the `filepath.Walk` return value is not assigned), then
partitions the collected samples into shards.  `shardSize = 0` makes the
`numShards` division panic (modelled `none`).  `shardFail i` abstracts a
failure of `createShard` for shard `i`; the first failing shard aborts with
`fmt.Errorf("error creating shard %d: %v", i, err)`, otherwise the call
returns `nil` and the shard list stands. -/
def createWebDatasetShards (format : OutputFormat) (entries : List WalkEntry)
    (shardSize : Int) (shardFail : Nat → Option String) :
    Option (Except String (List (String × List String))) :=
  let samples := (collectSamples format entries).1
  if shardSize = 0 then none
  else
    let shards := shardsOf samples shardSize
    match (List.range shards.length).findSome?
        (fun i => (shardFail i).map (fun er => (i, er))) with
    | some ie =>
        some (Except.error ("error creating shard " ++ toString ie.1 ++ ": " ++ ie.2))
    | none => some (Except.ok shards)

/-- Go `filepath.Base` on a component path. -/
def pathBase (p : List String) : String :=
  p.getLastD ""

/-- Go `filepath.Dir` on a component path. -/
def pathDir (p : List String) : List String :=
  p.dropLast

/-- Go `filepath.Rel(b, p)` in the case `b` is an ancestor of `p`: the
components of `p` after the prefix `b`. -/
def relPath (b p : List String) : List String :=
  p.drop b.length

/-- The tar entry name `sharding.createShard` assigns to a file at `path`
inside the chunk directory `sample` (jpg format):

```
relPath, _ := filepath.Rel(filepath.Dir(sample), path)
tarPath := filepath.Join(filepath.Base(sample), relPath)
``` -/
def createShardEntryName (sample path : List String) : List String :=
  pathBase sample :: relPath (pathDir sample) path

/-! ## Helper lemmas -/

/-- Go truncated division of two non-negative machine ints is Nat division. -/
lemma tdiv_coe (m n : Nat) : (m : Int).tdiv (n : Int) = ((m / n : Nat) : Int) := rfl

/-- Go truncated remainder of two non-negative machine ints is Nat mod. -/
lemma tmod_coe (m n : Nat) : (m : Int).tmod (n : Int) = ((m % n : Nat) : Int) := rfl

/-- Both format branches of `ProcessClip` run the same partitioning. -/
lemma processClipPlan_eq (format : OutputFormat) (totalFrames targetFrames : Int) :
    processClipPlan format totalFrames targetFrames
      = chunkPlanTrunc totalFrames targetFrames := by
  cases format <;> rfl

/-- For a positive chunk length the dead `remainingFrames == targetFrames`
branch never fires and the plan is the `numChunks` complete ranges. -/
lemma chunkPlanTrunc_of_pos (tf t : Nat) (ht : 0 < t) :
    chunkPlanTrunc (tf : Int) (t : Int)
      = some ((List.range (tf / t)).map
          (fun i => ⟨(i : Int) * (t : Int), ((i : Int) + 1) * (t : Int)⟩)) := by
  have ht0 : (t : Int) ≠ 0 := by
    simpa using ht.ne'
  unfold chunkPlanTrunc
  rw [if_neg ht0, tmod_coe, tdiv_coe]
  have hmod : tf % t < t := Nat.mod_lt _ ht
  have hne : ((tf % t : Nat) : Int) ≠ (t : Int) := by
    intro h
    have : tf % t = t := by exact_mod_cast h
    omega
  rw [if_neg hne, Int.toNat_ofNat]

/-- C1: for every totalFrames >= 0 and targetFrames > 0 under the truncate
policy, ProcessClip emits exactly floor(totalFrames/targetFrames) chunks,
chunk i covering frames [i*targetFrames, (i+1)*targetFrames); the trailing
totalFrames mod targetFrames frames are never referenced by any emitted
chunk and no error is produced (in particular totalFrames < targetFrames
yields zero chunks and success), in both output formats. -/
theorem C1_truncate_plan (format : OutputFormat) (totalFrames targetFrames : Nat)
    (ht : 0 < targetFrames) :
    ∃ chunks : List ChunkRange,
      processClipPlan format (totalFrames : Int) (targetFrames : Int) = some chunks ∧
      chunks.length = totalFrames / targetFrames ∧
      (∀ i : Nat, ∀ h : i < chunks.length,
        chunks[i] = ⟨(i : Int) * (targetFrames : Int),
                     ((i : Int) + 1) * (targetFrames : Int)⟩) ∧
      (∀ c ∈ chunks, 0 ≤ c.start ∧
        c.stop ≤ (totalFrames : Int) - ((totalFrames % targetFrames : Nat) : Int)) ∧
      (totalFrames < targetFrames → chunks = []) := by
  refine ⟨_, by rw [processClipPlan_eq, chunkPlanTrunc_of_pos _ _ ht], ?_, ?_, ?_, ?_⟩
  · simp
  · intro i h
    simp at h
    simp [h]
  · intro c hc
    simp only [List.mem_map, List.mem_range] at hc
    obtain ⟨i, hi, rfl⟩ := hc
    dsimp only
    constructor
    · positivity
    · have hmul : (i + 1) * targetFrames ≤ (totalFrames / targetFrames) * targetFrames :=
        Nat.mul_le_mul_right _ hi
      have hdm : targetFrames * (totalFrames / targetFrames) + totalFrames % targetFrames
          = totalFrames := Nat.div_add_mod _ _
      have hmulZ : ((i : Int) + 1) * (targetFrames : Int)
          ≤ ((totalFrames / targetFrames : Nat) : Int) * (targetFrames : Int) := by
        exact_mod_cast hmul
      have hdmZ : (targetFrames : Int) * ((totalFrames / targetFrames : Nat) : Int)
          + ((totalFrames % targetFrames : Nat) : Int) = (totalFrames : Int) := by
        exact_mod_cast hdm
      linarith [hmulZ, hdmZ]
  · intro hlt
    have : totalFrames / targetFrames = 0 := Nat.div_eq_of_lt hlt
    simp [this]

/-- Witness for C1 at the spec's own scenario: 20 total frames, chunk length
7 gives 2 complete chunks covering [0,7) and [7,14). -/
theorem C1_truncate_plan_witness :
    ∃ chunks : List ChunkRange,
      processClipPlan OutputFormat.npy ((20 : Nat) : Int) ((7 : Nat) : Int) = some chunks ∧
      chunks.length = 20 / 7 ∧
      (∀ i : Nat, ∀ h : i < chunks.length,
        chunks[i] = ⟨(i : Int) * ((7 : Nat) : Int), ((i : Int) + 1) * ((7 : Nat) : Int)⟩) ∧
      (∀ c ∈ chunks, 0 ≤ c.start ∧
        c.stop ≤ ((20 : Nat) : Int) - ((20 % 7 : Nat) : Int)) ∧
      (20 < 7 → chunks = []) :=
  C1_truncate_plan OutputFormat.npy 20 7 (by decide)

/-- C4 counterexample: with targetFrames = 0 the per-clip processing hits a
division-by-zero panic (no result at all), and with targetFrames = -1 it
silently succeeds emitting zero chunks; in neither case does it return an
input-validation error, in either format. -/
theorem C4_counterexample :
    processClipPlan OutputFormat.npy 20 0 = none ∧
    processClipPlan OutputFormat.jpg 20 0 = none ∧
    processClipPlan OutputFormat.npy 20 (-1) = some [] ∧
    processClipPlan OutputFormat.jpg 20 (-1) = some [] := by
  refine ⟨rfl, rfl, ?_, ?_⟩ <;> decide

/-- C4 amended: ProcessClip performs no validation of targetFrames at all:
targetFrames = 0 makes the chunk-count division panic at runtime (modelled
as no result), and targetFrames < 0 yields zero chunks and success (nil
error), for both the binary-array and per-frame-image formats. -/
theorem C4_no_targetFrames_validation (format : OutputFormat) (totalFrames : Nat)
    (targetFrames : Int) :
    (targetFrames = 0 →
      processClipPlan format (totalFrames : Int) targetFrames = none) ∧
    (targetFrames < 0 →
      processClipPlan format (totalFrames : Int) targetFrames = some []) := by
  rw [processClipPlan_eq]
  constructor
  · intro h0
    unfold chunkPlanTrunc
    rw [if_pos h0]
  · intro hneg
    unfold chunkPlanTrunc
    rw [if_neg (by omega : targetFrames ≠ 0)]
    have hdiv : (totalFrames : Int).tdiv targetFrames ≤ 0 := by
      have h1 : 0 ≤ (totalFrames : Int).tdiv (-targetFrames) :=
        Int.tdiv_nonneg (by positivity) (by omega)
      have h2 : (totalFrames : Int).tdiv (-(-targetFrames))
          = -((totalFrames : Int).tdiv (-targetFrames)) := Int.tdiv_neg _ _
      rw [neg_neg] at h2
      omega
    have hmodne : (totalFrames : Int).tmod targetFrames ≠ targetFrames := by
      have h3 : 0 ≤ (totalFrames : Int).tmod targetFrames :=
        Int.tmod_nonneg _ (by positivity)
      omega
    rw [if_neg hmodne, Int.toNat_of_nonpos hdiv]
    rfl

/-- Witness for C4 amended, at totalFrames = 20 with targetFrames 0 and -1
in the npy format. -/
theorem C4_no_targetFrames_validation_witness :
    ((0 : Int) = 0 → processClipPlan OutputFormat.npy ((20 : Nat) : Int) 0 = none) ∧
    ((-1 : Int) < 0 →
      processClipPlan OutputFormat.npy ((20 : Nat) : Int) (-1) = some []) :=
  ⟨(C4_no_targetFrames_validation OutputFormat.npy 20 0).1,
    (C4_no_targetFrames_validation OutputFormat.npy 20 (-1)).2⟩

/-- `sprintf05` pads to width 5: the result length is the max of 5 and the
length of the plain decimal representation. -/
lemma sprintf05_length (i : Nat) :
    (sprintf05 i).length = max 5 (toString i).length := by
  unfold sprintf05
  rw [String.length_append]
  have h1 : (String.mk (List.replicate (5 - (toString i).length) (Char.ofNat 48))).length
      = 5 - (toString i).length := by
    show (List.replicate (5 - (toString i).length) (Char.ofNat 48)).length = _
    exact List.length_replicate _ _
  rw [h1]
  omega

/-- C3 counterexample: the metadata record ProcessClip writes for chunk 0 of
clip "clip" (fps 8, 16 frames, 256x256) serializes without the is_padded and
is_trimmed fields: both carry their zero value false and their JSON tags say
omitempty, so encoding/json drops them. -/
theorem C3_counterexample :
    "is_padded" ∉
      clipMetadataJSONFields (processClipChunkMetadata "clip" 0 8 16 ⟨256, 256⟩) ∧
    "is_trimmed" ∉
      clipMetadataJSONFields (processClipChunkMetadata "clip" 0 8 16 ⟨256, 256⟩) ∧
    clipMetadataJSONFields (processClipChunkMetadata "clip" 0 8 16 ⟨256, 256⟩)
      = ["key", "fps", "frame_count", "size", "original_fps"] := by
  refine ⟨?_, ?_, ?_⟩ <;> decide

/-- C3 amended: every chunk metadata JSON record written by ProcessClip
contains exactly the fields key, fps, frame_count, size (the two-element
list [height, width]), plus original_fps when fps is nonzero; is_padded and
is_trimmed are always omitted (they are always false and tagged omitempty,
as is original_fps, omitted when fps = 0).  The key field equals
"<clipKey>/chunk_<chunkIndex>" with the chunk index zero-padded to 5
digits. -/
theorem C3_metadata_fields (clipKey : String) (i : Nat) (fps targetFrames : Int)
    (dims : Dimensions) :
    clipMetadataJSONFields (processClipChunkMetadata clipKey i fps targetFrames dims)
      = ["key", "fps", "frame_count", "size"]
        ++ (if fps ≠ 0 then ["original_fps"] else []) ∧
    (processClipChunkMetadata clipKey i fps targetFrames dims).key
      = clipKey ++ "/chunk_" ++ sprintf05 i ∧
    (processClipChunkMetadata clipKey i fps targetFrames dims).size
      = [dims.height, dims.width] ∧
    (processClipChunkMetadata clipKey i fps targetFrames dims).frameCount
      = targetFrames ∧
    (sprintf05 i).length = max 5 (toString i).length := by
  refine ⟨?_, rfl, rfl, rfl, sprintf05_length i⟩
  simp [clipMetadataJSONFields, processClipChunkMetadata]

/-- C5 counterexample: packing the file frame_001.jpg of chunk directory
output/clipA/chunk_00000, the tar entry name is
chunk_00000/chunk_00000/frame_001.jpg: the chunk directory name appears
twice as a path prefix, not exactly once as the claim states. -/
theorem C5_counterexample :
    createShardEntryName ["output", "clipA", "chunk_00000"]
        ["output", "clipA", "chunk_00000", "frame_001.jpg"]
      = ["chunk_00000", "chunk_00000", "frame_001.jpg"] ∧
    createShardEntryName ["output", "clipA", "chunk_00000"]
        ["output", "clipA", "chunk_00000", "frame_001.jpg"]
      ≠ ["chunk_00000", "frame_001.jpg"] := by
  exact ⟨rfl, by decide⟩

/-- C5 amended: for image-format samples, each file of the chunk directory is
archived under filepath.Join(Base(sample), Rel(Dir(sample), path)); since the
path relative to the chunk's parent already starts with the chunk directory
name, the archived entry name carries the chunk directory name twice as a
path prefix, followed by the file's path inside the chunk directory. -/
theorem C5_entry_name_duplicated (dir : List String) (chunkName : String)
    (rest : List String) :
    createShardEntryName (dir ++ [chunkName]) (dir ++ [chunkName] ++ rest)
      = chunkName :: chunkName :: rest := by
  unfold createShardEntryName pathBase pathDir relPath
  rw [List.getLastD_concat, List.dropLast_concat]
  congr 1
  rw [List.append_assoc, List.drop_left]
  rfl

/-- C6: for every batch run, a failure on one clip does not prevent any other
clip from being processed and reported (each failing clip's message is in the
collected list regardless of the rest of the batch); after all clips are
processed the orchestrator returns nil when nothing failed, and otherwise a
single aggregate error stating the number of failures and enumerating every
failed clip's key and cause. -/
theorem C6_error_aggregation (run : Clip → Option String) (clips : List Clip)
    (numWorkers : Int) :
    ((processClips run clips numWorkers).2 = none ↔ ∀ c ∈ clips, run c = none) ∧
    (∀ c ∈ clips, ∀ e, run c = some e → clipErrMsg c e ∈ collectErrs run clips) ∧
    (collectErrs run clips).length = clips.countP (fun c => (run c).isSome) ∧
    (collectErrs run clips ≠ [] →
      (processClips run clips numWorkers).2
        = some ("encountered " ++ toString (collectErrs run clips).length
            ++ " errors: " ++ renderErrs (collectErrs run clips))) := by
  refine ⟨?_, ?_, ?_, ?_⟩
  · unfold processClips
    dsimp only
    constructor
    · intro h
      by_cases hl : 0 < (collectErrs run clips).length
      · rw [if_pos hl] at h
        exact absurd h (by simp)
      · intro c hc
        have hnil : collectErrs run clips = [] := by
          cases he : collectErrs run clips with
          | nil => rfl
          | cons a l => rw [he] at hl; exact absurd (by simp) hl
        have := List.filterMap_eq_nil_iff.mp hnil c hc
        simpa using this
    · intro h
      have hnil : collectErrs run clips = [] := by
        apply List.filterMap_eq_nil_iff.mpr
        intro c hc
        simp [h c hc]
      rw [if_neg (by simp [hnil])]
  · intro c hc e he
    unfold collectErrs
    exact List.mem_filterMap.mpr ⟨c, hc, by simp [he]⟩
  · unfold collectErrs
    induction clips with
    | nil => rfl
    | cons c l ih =>
      cases hrc : run c with
      | none => simpa [List.filterMap_cons, hrc, List.countP_cons, hrc] using ih
      | some e => simpa [List.filterMap_cons, hrc, List.countP_cons, hrc] using ih
  · intro hne
    unfold processClips
    dsimp only
    rw [if_pos (by cases he : collectErrs run clips with
      | nil => exact absurd he hne
      | cons a l => simp [he])]

/-- Witness for C6: a two-clip batch where the first clip fails and the
second succeeds. -/
theorem C6_error_aggregation_witness :
    (((processClips (fun c => if c.key = "a" then some "boom" else none)
        [⟨"a", []⟩, ⟨"b", []⟩] 2).2 = none
      ↔ ∀ c ∈ ([⟨"a", []⟩, ⟨"b", []⟩] : List Clip),
          (fun c => if c.key = "a" then some "boom" else none) c = none) ∧
    (∀ c ∈ ([⟨"a", []⟩, ⟨"b", []⟩] : List Clip), ∀ e,
      (fun c => if c.key = "a" then some "boom" else none) c = some e →
        clipErrMsg c e ∈ collectErrs
          (fun c => if c.key = "a" then some "boom" else none) [⟨"a", []⟩, ⟨"b", []⟩]) ∧
    (collectErrs (fun c => if c.key = "a" then some "boom" else none)
        [⟨"a", []⟩, ⟨"b", []⟩]).length
      = ([⟨"a", []⟩, ⟨"b", []⟩] : List Clip).countP
          (fun c => ((fun c => if c.key = "a" then some "boom" else none) c).isSome) ∧
    (collectErrs (fun c => if c.key = "a" then some "boom" else none)
        [⟨"a", []⟩, ⟨"b", []⟩] ≠ [] →
      (processClips (fun c => if c.key = "a" then some "boom" else none)
          [⟨"a", []⟩, ⟨"b", []⟩] 2).2
        = some ("encountered "
            ++ toString (collectErrs (fun c => if c.key = "a" then some "boom" else none)
                [⟨"a", []⟩, ⟨"b", []⟩]).length
            ++ " errors: "
            ++ renderErrs (collectErrs (fun c => if c.key = "a" then some "boom" else none)
                [⟨"a", []⟩, ⟨"b", []⟩])))) :=
  C6_error_aggregation (fun c => if c.key = "a" then some "boom" else none)
    [⟨"a", []⟩, ⟨"b", []⟩] 2

/-- C7 counterexample: called with workerCount = 0 the orchestrator starts
its default of 4 workers, not max(1, 0) = 1. -/
theorem C7_counterexample :
    (processClips (fun _ => none) [] 0).1 ≠ max 1 (0 : Int) := by
  decide

/-- C7 amended: for every workerCount, the orchestrator runs with a bounded
worker pool of exactly workerCount concurrent workers when workerCount > 0,
and of the default 4 workers when workerCount <= 0 (so the pool is always
positive and bounded), drawing from a single pre-loaded queue containing all
clips. -/
theorem C7_worker_count (run : Clip → Option String) (clips : List Clip)
    (numWorkers : Int) :
    (0 < numWorkers → (processClips run clips numWorkers).1 = numWorkers) ∧
    (numWorkers ≤ 0 → (processClips run clips numWorkers).1 = 4) ∧
    0 < (processClips run clips numWorkers).1 := by
  unfold processClips
  dsimp only
  refine ⟨fun h => by rw [if_neg (by omega)], fun h => by rw [if_pos h], ?_⟩
  by_cases h : numWorkers ≤ 0
  · rw [if_pos h]; omega
  · rw [if_neg h]; omega

/-- Witness for C7 amended at workerCount = 0 on an empty batch. -/
theorem C7_worker_count_witness :
    (0 < (0 : Int) → (processClips (fun _ => none) [] 0).1 = 0) ∧
    ((0 : Int) ≤ 0 → (processClips (fun _ => none) [] 0).1 = 4) ∧
    0 < (processClips (fun _ => none) [] 0).1 :=
  C7_worker_count (fun _ => none) [] 0

/-- C8: the clip extractor keeps EVERY entry whose name ends in .mp4 — the
macOS hidden entry ._test_video.mp4 from the repository's own unit test
(which asserts it is skipped and exactly one clip is returned) is extracted
as a second clip with key ._test_video; no dot-file filter exists in the
code. -/
theorem C8_hidden_file_not_skipped :
    extractClipsFromTar
        [⟨"test_video.mp4", [1, 2, 3]⟩, ⟨"._test_video.mp4", [4, 5]⟩]
      = [⟨"test_video", [1, 2, 3]⟩, ⟨"._test_video", [4, 5]⟩] ∧
    (extractClipsFromTar
        [⟨"test_video.mp4", [1, 2, 3]⟩, ⟨"._test_video.mp4", [4, 5]⟩]).length ≠ 1 := by
  refine ⟨?_, ?_⟩ <;> decide

/-- C9: the shard packer discards the error result of its discovery walk: a
traversal failure stops discovery early, keeping the samples found before
the failing entry, and — when the shard writes themselves succeed — the
packer returns success built from that partial sample list instead of
reporting the traversal failure. -/
theorem C9_walk_error_discarded :
    (∀ (format : OutputFormat) (pre : List WalkEntry) (e : WalkEntry)
        (post : List WalkEntry) (er : String),
      e.err = some er → (∀ p ∈ pre, p.err = none) →
      collectSamples format (pre ++ e :: post)
        = ((collectSamples format pre).1, some er)) ∧
    (∀ (format : OutputFormat) (entries : List WalkEntry) (shardSize : Int)
        (shardFail : Nat → Option String),
      0 < shardSize → (∀ i, shardFail i = none) →
      createWebDatasetShards format entries shardSize shardFail
        = some (Except.ok (shardsOf (collectSamples format entries).1 shardSize))) := by
  constructor
  · intro format pre e post er he hpre
    induction pre with
    | nil =>
      simp only [List.nil_append, collectSamples, he]
    | cons p l ih =>
      have hp : p.err = none := hpre p (by simp)
      have hl : ∀ q ∈ l, q.err = none := fun q hq => hpre q (by simp [hq])
      simp only [List.cons_append, collectSamples, hp, List.append_eq]
      rw [ih hl]
  · intro format entries shardSize shardFail hpos hok
    unfold createWebDatasetShards
    rw [if_neg (by omega)]
    dsimp only
    have hfind : (List.range (shardsOf (collectSamples format entries).1
        shardSize).length).findSome?
          (fun i => (shardFail i).map (fun er => (i, er))) = none := by
      apply List.findSome?_eq_none_iff.mpr
      intro i _
      rw [hok i]
      rfl
    rw [hfind]


/-- Witness for C9: a four-entry walk whose third entry fails; the sample
found before the failure survives and packing succeeds with shard size 2. -/
theorem C9_walk_error_discarded_witness :
    (collectSamples OutputFormat.jpg
        ([⟨["out"], true, false, none⟩, ⟨["out", "a", "chunk_00000"], true, true, none⟩]
          ++ (⟨["out", "bad"], false, false, some "walkfail"⟩ : WalkEntry)
          :: [⟨["out", "b", "chunk_00001"], true, true, none⟩])
      = ((collectSamples OutputFormat.jpg
          [⟨["out"], true, false, none⟩,
            ⟨["out", "a", "chunk_00000"], true, true, none⟩]).1, some "walkfail")) ∧
    (createWebDatasetShards OutputFormat.jpg
        [⟨["out"], true, false, none⟩, ⟨["out", "a", "chunk_00000"], true, true, none⟩,
          ⟨["out", "bad"], false, false, some "walkfail"⟩,
          ⟨["out", "b", "chunk_00001"], true, true, none⟩] 2 (fun _ => none)
      = some (Except.ok (shardsOf (collectSamples OutputFormat.jpg
          [⟨["out"], true, false, none⟩, ⟨["out", "a", "chunk_00000"], true, true, none⟩,
            ⟨["out", "bad"], false, false, some "walkfail"⟩,
            ⟨["out", "b", "chunk_00001"], true, true, none⟩]).1 2))) :=
  ⟨C9_walk_error_discarded.1 OutputFormat.jpg
      [⟨["out"], true, false, none⟩, ⟨["out", "a", "chunk_00000"], true, true, none⟩]
      ⟨["out", "bad"], false, false, some "walkfail"⟩
      [⟨["out", "b", "chunk_00001"], true, true, none⟩] "walkfail" rfl (by decide),
    C9_walk_error_discarded.2 OutputFormat.jpg
      [⟨["out"], true, false, none⟩, ⟨["out", "a", "chunk_00000"], true, true, none⟩,
        ⟨["out", "bad"], false, false, some "walkfail"⟩,
        ⟨["out", "b", "chunk_00001"], true, true, none⟩] 2 (fun _ => none)
      (by decide) (fun _ => rfl)⟩

/-- Ceil-division shard count: for a positive divisor, parts as computed by
(len + shardSize - 1) / shardSize in Go arithmetic agree with Nat ceil
division. -/
lemma tdiv_shardCount (n : Nat) (s : Int) (hs : 0 < s) :
    ((n : Int) + s - 1).tdiv s = ((n + s.toNat - 1) / s.toNat : Nat) := by
  obtain ⟨m, rfl⟩ : ∃ m : Nat, s = (m : Int) :=
    ⟨s.toNat, (Int.toNat_of_nonneg hs.le).symm⟩
  have hm : 0 < m := by exact_mod_cast hs
  have h1 : (n : Int) + (m : Int) - 1 = ((n + m - 1 : Nat) : Int) := by omega
  rw [h1, tdiv_coe, Int.toNat_ofNat]

/-- Concatenating the s-sized chunks of `l` recovers `l` once `k * s` covers
its length. -/
lemma chunks_join {β : Type} (s : Nat) :
    ∀ (k : Nat) (l : List β), l.length ≤ k * s →
      ((List.range k).map (fun i => (l.drop (i * s)).take s)).flatten = l := by
  intro k
  induction k with
  | zero =>
    intro l hl
    have : l = [] := List.eq_nil_of_length_eq_zero (by omega)
    simp [this]
  | succ k ih =>
    intro l hl
    rw [List.range_succ_eq_map, List.map_cons, List.map_map, List.flatten_cons]
    have hfun : ((fun i => (l.drop (i * s)).take s) ∘ Nat.succ)
        = (fun i => ((l.drop s).drop (i * s)).take s) := by
      funext i
      show (l.drop (Nat.succ i * s)).take s = ((l.drop s).drop (i * s)).take s
      rw [List.drop_drop]
      congr 2
      rw [Nat.succ_mul, Nat.add_comm]
    rw [hfun]
    have hlen : (l.drop s).length ≤ k * s := by
      rw [List.length_drop]
      have hmul : (k + 1) * s = k * s + s := by ring
      omega
    rw [ih (l.drop s) hlen]
    simp [List.take_append_drop]

/-- Ceil division covers: `n ≤ ceil(n/s) * s`. -/
lemma ceil_mul_ge (n s : Nat) (hs : 0 < s) : n ≤ ((n + s - 1) / s) * s := by
  have h := Nat.div_add_mod (n + s - 1) s
  have hr : (n + s - 1) % s < s := Nat.mod_lt _ hs
  rw [Nat.mul_comm]
  omega

/-- The shard count of `shardsOf` is Nat ceil division for positive sizes. -/
lemma shardsOf_length (samples : List String) (s : Int) (hs : 0 < s) :
    (shardsOf samples s).length = (samples.length + s.toNat - 1) / s.toNat := by
  unfold shardsOf
  dsimp only
  rw [List.length_map, List.length_range, tdiv_shardCount _ _ hs, Int.toNat_ofNat]

/-- The shards of `shardsOf` partition the sample list in discovery order. -/
lemma shardsOf_join (samples : List String) (s : Int) (hs : 0 < s) :
    ((shardsOf samples s).map Prod.snd).flatten = samples := by
  have hsN : 0 < s.toNat := by omega
  unfold shardsOf
  dsimp only
  rw [List.map_map]
  have hfun : ∀ i ∈ List.range (((samples.length : Int) + s - 1).tdiv s).toNat,
      (Prod.snd ∘ (fun i =>
        ("shard_" ++ sprintf05 i ++ ".tar",
          (samples.drop (i * s.toNat)).take
            (min ((i + 1) * s.toNat) samples.length - i * s.toNat)))) i
        = (fun i => (samples.drop (i * s.toNat)).take s.toNat) i := by
    intro i _
    show (samples.drop (i * s.toNat)).take
        (min ((i + 1) * s.toNat) samples.length - i * s.toNat)
      = (samples.drop (i * s.toNat)).take s.toNat
    apply List.take_eq_take.mpr
    rw [List.length_drop]
    have hmul : (i + 1) * s.toNat = i * s.toNat + s.toNat := by ring
    omega
  rw [List.map_congr_left hfun]
  rw [tdiv_shardCount _ _ hs, Int.toNat_ofNat]
  exact chunks_join s.toNat _ samples (ceil_mul_ge _ _ hsN)

/-- C10: the shard packer never validates its shard-capacity argument:
shardSize = 0 makes the shard-count computation
(len(samples)+shardSize-1)/shardSize divide by zero (a runtime panic,
modelled as no result, not an input-validation error); for every
shardSize > 0 it creates ceil(sampleCount/shardSize) shards named
shard_<index>.tar with a 5-digit zero-padded index, the shards covering the
samples in discovery order. -/
theorem C10_shard_partitioning :
    (∀ (format : OutputFormat) (entries : List WalkEntry)
        (shardFail : Nat → Option String),
      createWebDatasetShards format entries 0 shardFail = none) ∧
    (∀ (samples : List String) (shardSize : Int), 0 < shardSize →
      (shardsOf samples shardSize).length
          = (samples.length + shardSize.toNat - 1) / shardSize.toNat ∧
      (∀ i : Nat, ∀ h : i < (shardsOf samples shardSize).length,
        ((shardsOf samples shardSize)[i]).1 = "shard_" ++ sprintf05 i ++ ".tar") ∧
      ((shardsOf samples shardSize).map Prod.snd).flatten = samples) := by
  constructor
  · intro format entries shardFail
    unfold createWebDatasetShards
    rw [if_pos rfl]
  · intro samples shardSize hs
    refine ⟨shardsOf_length samples shardSize hs, ?_, shardsOf_join samples shardSize hs⟩
    intro i h
    unfold shardsOf
    simp [List.getElem_map, List.getElem_range]

/-- Witness for C10 at the empty walk with shard size 0, and five samples
with shard size 2 (three shards: 2 + 2 + 1 samples). -/
theorem C10_shard_partitioning_witness :
    createWebDatasetShards OutputFormat.npy [] 0 (fun _ => none) = none ∧
    ((shardsOf ["s0", "s1", "s2", "s3", "s4"] 2).length
        = (5 + (2 : Int).toNat - 1) / (2 : Int).toNat ∧
      (∀ i : Nat, ∀ h : i < (shardsOf ["s0", "s1", "s2", "s3", "s4"] 2).length,
        ((shardsOf ["s0", "s1", "s2", "s3", "s4"] 2)[i]).1
          = "shard_" ++ sprintf05 i ++ ".tar") ∧
      ((shardsOf ["s0", "s1", "s2", "s3", "s4"] 2).map Prod.snd).flatten
        = ["s0", "s1", "s2", "s3", "s4"]) :=
  ⟨C10_shard_partitioning.1 OutputFormat.npy [] (fun _ => none),
    C10_shard_partitioning.2 ["s0", "s1", "s2", "s3", "s4"] 2 (by decide)⟩

/-- The character list of a string has the string's length. -/
lemma toList_length (s : String) : s.toList.length = s.length := rfl

/-- Unfolding `shapeParts` at a leading dimension followed by more. -/
lemma shapeParts_zero_cons (l : List Int) (hl : l ≠ []) :
    shapeParts (0 :: l) = toString (0 : Int) ++ ", " ++ shapeParts l := by
  cases l with
  | nil => exact absurd rfl hl
  | cons a t => rfl

/-- Length of the shape-tuple interior for n+1 zero dimensions. -/
lemma shapeParts_replicate_length (n : Nat) :
    (shapeParts (List.replicate (n + 1) (0 : Int))).length = 3 * n + 1 := by
  induction n with
  | zero => rfl
  | succ n ih =>
    rw [List.replicate_succ]
    rw [shapeParts_zero_cons _ (by simp)]
    rw [String.length_append, String.length_append, ih]
    have h1 : (toString (0 : Int)).length = 1 := rfl
    have h2 : (", " : String).length = 2 := rfl
    rw [h1, h2]
    omega

/-- A 21900-dimensional shape, large enough that its dictionary text
overflows the 16-bit header length field. -/
def bigShape : List Int := List.replicate 21900 0

/-- The dictionary for `bigShape` is 65751 bytes long. -/
lemma dictLen_bigShape : dictLen bigShape = 65751 := by
  have hb : bigShape = List.replicate (21899 + 1) (0 : Int) := rfl
  unfold dictLen dictStr
  rw [hb, String.length_append, String.length_append,
    shapeParts_replicate_length 21899]
  have h1 : ("\x7b\x27descr\x27: \x27<u1\x27, \x27fortran_order\x27: False, \x27shape\x27: (" : String).length = 51 := rfl
  have h2 : (")\x7d" : String).length = 2 := rfl
  rw [h1, h2]

/-- C2 counterexample: for the 21900-dimensional all-zero shape the
dictionary plus padding is 65766 bytes, so the Go uint16 conversion wraps
and the 16-bit length field holds 230, not len(dictionary)+padding: the
claimed equality fails for this (non-empty, non-negative) shape list. -/
theorem C2_counterexample :
    headerLenField bigShape ≠ dictLen bigShape + headerPadding bigShape := by
  have hpad_def : ∀ shape : List Int,
      headerPadding shape = (16 - (dictLen shape + 10) % 16) % 16 := fun _ => rfl
  have hfield_def : ∀ shape : List Int,
      headerLenField shape = (dictLen shape + headerPadding shape) % 65536 :=
    fun _ => rfl
  rw [hfield_def, hpad_def, dictLen_bigShape]
  omega

/-- C2 amended: for every non-empty shape list of non-negative dimensions,
the header is exactly the 8 bytes 0x93 N U M P Y 0x01 0x00, then a
little-endian 16-bit field holding (len(dictionary)+padding) mod 65536 —
equal to len(dictionary)+padding whenever that sum fits in 16 bits — then
the dictionary text, then ASCII space padding making
10 + len(dictionary) + padding a multiple of 16; the payload follows the
header unchanged. -/
theorem C2_npy_header (data : List Nat) (shape : List Int)
    (_hne : shape ≠ []) (_hnn : ∀ d ∈ shape, 0 ≤ d) :
    createHeader shape
      = [0x93, 0x4E, 0x55, 0x4D, 0x50, 0x59, 0x01, 0x00]
        ++ [headerLenField shape % 256, headerLenField shape / 256]
        ++ ((dictStr shape).toList.map Char.toNat)
        ++ List.replicate (headerPadding shape) 0x20 ∧
    (createHeader shape).length = 10 + dictLen shape + headerPadding shape ∧
    headerLenField shape = (dictLen shape + headerPadding shape) % 65536 ∧
    (dictLen shape + headerPadding shape < 65536 →
      headerLenField shape = dictLen shape + headerPadding shape) ∧
    (10 + dictLen shape + headerPadding shape) % 16 = 0 ∧
    writerWrite data shape = createHeader shape ++ data ∧
    (writerWrite data shape).drop ((createHeader shape).length) = data := by
  refine ⟨rfl, ?_, rfl, ?_, ?_, rfl, ?_⟩
  · unfold createHeader
    rw [List.length_append, List.length_append, List.length_append,
      List.length_map, List.length_replicate]
    have h1 : (dictStr shape).toList.length = dictLen shape := toList_length _
    rw [h1]
    rfl
  · intro h
    exact Nat.mod_eq_of_lt h
  · unfold headerPadding
    omega
  · unfold writerWrite
    exact List.drop_left _ _

/-- Witness for C2 amended at the unit test's shape (2, 3) with a six-byte
payload. -/
theorem C2_npy_header_witness :
    createHeader [2, 3]
      = [0x93, 0x4E, 0x55, 0x4D, 0x50, 0x59, 0x01, 0x00]
        ++ [headerLenField [2, 3] % 256, headerLenField [2, 3] / 256]
        ++ ((dictStr [2, 3]).toList.map Char.toNat)
        ++ List.replicate (headerPadding [2, 3]) 0x20 ∧
    (createHeader [2, 3]).length = 10 + dictLen [2, 3] + headerPadding [2, 3] ∧
    headerLenField [2, 3] = (dictLen [2, 3] + headerPadding [2, 3]) % 65536 ∧
    (dictLen [2, 3] + headerPadding [2, 3] < 65536 →
      headerLenField [2, 3] = dictLen [2, 3] + headerPadding [2, 3]) ∧
    (10 + dictLen [2, 3] + headerPadding [2, 3]) % 16 = 0 ∧
    writerWrite [1, 2, 3, 4, 5, 6] [2, 3] = createHeader [2, 3] ++ [1, 2, 3, 4, 5, 6] ∧
    (writerWrite [1, 2, 3, 4, 5, 6] [2, 3]).drop ((createHeader [2, 3]).length)
      = [1, 2, 3, 4, 5, 6] :=
  C2_npy_header [1, 2, 3, 4, 5, 6] [2, 3] (by decide) (by decide)
